import Mathlib

/-!
Verification of `experiments/countdown-workflow/utils/download_utils.py`,
a helper layer around the yt-dlp media downloader.  The module holds one
piece of mutable state (`_downloaded_file_path_global`) and four
operations: `parse_time_to_seconds`, `download_ranges_callback`,
`my_progress_hook` and `get_downloaded_filepath`.

The embedding is shallow: Python dictionaries whose read keys carry
string values become association lists `List (String × String)`; the
module-global cell becomes an explicit `DownloadState` value threaded
through the progress hook; Python exceptions become an `Except` error
type whose constructors distinguish the exception site (the two
`ValueError`s raised in the module carry different messages, and the
`dict` subscript raises `KeyError`).
-/

deriving instance DecidableEq for Except

/-- Errors the module can raise.  `formatError` is the `ValueError`
coming out of `int()` conversion / tuple unpacking in
`parse_time_to_seconds`; `missingParameterError` is the `ValueError`
raised explicitly by `download_ranges_callback` when `start_time` or
`end_time` is missing; `keyError k` is Python's `KeyError` on a dict
subscript `d[k]`. -/
inductive DlError where
  | formatError : DlError
  | missingParameterError : DlError
  | keyError : String → DlError
deriving DecidableEq, Repr

/-- The Python whitespace characters stripped by `int()` before parsing
(space, tab, newline, carriage return, vertical tab, form feed). -/
def isPySpace (c : Char) : Bool :=
  c = ' ' || c = '\t' || c = '\n' || c = '\r' || c = '\x0b' || c = '\x0c'

/-- Strip leading and trailing Python whitespace from a character list. -/
def pyStrip (cs : List Char) : List Char :=
  ((cs.dropWhile isPySpace).reverse.dropWhile isPySpace).reverse

/-- The numeric value of an ASCII decimal digit, `none` otherwise. -/
def digitVal (c : Char) : Option Nat :=
  if '0' ≤ c ∧ c ≤ '9' then some (c.toNat - '0'.toNat) else none

/-- Continue parsing a digit string after at least one digit has been
read, allowing a single underscore between digits as Python's `int()`
does (`int("1_2") = 12`, while `"1__2"` and a trailing `"1_"` fail). -/
def parseDigitsCore : Nat → List Char → Option Nat
  | acc, [] => some acc
  | acc, '_' :: c2 :: rest =>
    match digitVal c2 with
    | some d => parseDigitsCore (acc * 10 + d) rest
    | none => none
  | _, ['_'] => none
  | acc, c :: rest =>
    match digitVal c with
    | some d => parseDigitsCore (acc * 10 + d) rest
    | none => none

/-- Parse a non-empty digit string (with Python's underscore grouping)
to its numeric value. -/
def parseDigits : List Char → Option Nat
  | [] => none
  | c :: rest =>
    match digitVal c with
    | some d => parseDigitsCore d rest
    | none => none

/-- Model of Python's `int(str)` conversion restricted to ASCII digits:
strip whitespace, then an optional sign followed by a non-empty digit
string (underscores allowed between digits).  Anything else raises
`ValueError`, modelled as `none`. -/
def pyIntChars (cs : List Char) : Option Int :=
  match pyStrip cs with
  | '+' :: rest => (parseDigits rest).map (fun n => (n : Int))
  | '-' :: rest => (parseDigits rest).map (fun n => -(n : Int))
  | rest => (parseDigits rest).map (fun n => (n : Int))

/-- Python's `str.split(sep)` for a one-character separator: every
occurrence of `sep` ends a field, so `"a:b"` gives two fields, `""`
gives one empty field and `"::"` gives three empty fields. -/
def pySplit (sep : Char) : List Char → List (List Char)
  | [] => [[]]
  | c :: rest =>
    if c = sep then [] :: pySplit sep rest
    else
      match pySplit sep rest with
      | f :: r => (c :: f) :: r
      | [] => [[c]]

/-- Apply `f` to every element, failing if any application fails
(Python's `map(int, ...)` consumed by tuple unpacking raises the first
`ValueError`; since the embedding does not distinguish which field
failed, applying `f` eagerly to all fields is observationally equal). -/
def mapOption (f : α → Option β) : List α → Option (List β)
  | [] => some []
  | a :: l =>
    match f a with
    | some b => (mapOption f l).map (fun bs => b :: bs)
    | none => none

/-- `parse_time_to_seconds` from the source:
`h, m, s = map(int, time_str.split(':'))` followed by
`return h * 3600 + m * 60 + s`.  Unpacking into exactly three names
raises `ValueError` when the field count differs from three, and
`int()` raises `ValueError` on an unparseable field; both are
`formatError` here. -/
def parse_time_to_seconds (time_str : String) : Except DlError Int :=
  match mapOption pyIntChars (pySplit ':' time_str.toList) with
  | some [h, m, s] => .ok (h * 3600 + m * 60 + s)
  | _ => .error .formatError

/-- `dict.get(k)` on a string-valued dictionary modelled as an
association list: the value at the first binding of `k`, or `none`. -/
def dictGet (d : List (String × String)) (k : String) : Option String :=
  (d.find? (fun kv => kv.1 = k)).map (fun kv => kv.2)

/-- Python truthiness of an optional string: `None` and `""` are falsy,
every non-empty string is truthy (`if not start_time`). -/
def pyFalsy : Option String → Bool
  | none => true
  | some s => decide (s = "")

/-- The range dictionary `{'start_time': start_seconds, 'end_time':
end_seconds}` returned by `download_ranges_callback` (the spec calls the
fields `start_seconds` / `end_seconds` of a `TimeRange`). -/
structure TimeRange where
  start_time : Int
  end_time : Int
deriving DecidableEq, Repr

/-- `download_ranges_callback` from the source: read `start_time` and
`end_time` from `ydl.params`, raise `ValueError` if either is falsy
(absent or empty), otherwise parse both and return the single-element
range list.  The unused `info_dict` argument is dropped; of the `ydl`
object only the `params` dictionary is read. -/
def download_ranges_callback (params : List (String × String)) :
    Except DlError (List TimeRange) :=
  let start_time := dictGet params "start_time"
  let end_time := dictGet params "end_time"
  if pyFalsy start_time || pyFalsy end_time then
    .error .missingParameterError
  else
    match start_time, end_time with
    | some st, some et => do
      let start_seconds ← parse_time_to_seconds st
      let end_seconds ← parse_time_to_seconds et
      pure [⟨start_seconds, end_seconds⟩]
    | _, _ => .error .missingParameterError

/-- The module-global `_downloaded_file_path_global : Optional[str]`. -/
abbrev DownloadState : Type := Option String

/-- The global is initialized to `None` at module load. -/
def initialDownloadState : DownloadState := none

/-- `my_progress_hook` from the source, with the module global threaded
explicitly: `d['status']` raises `KeyError` when absent; when the status
is `'finished'`, `d['filename']` (again raising `KeyError` when absent)
is stored into the global; otherwise the global is untouched.  The
`logger.info` call has no effect on the state. -/
def my_progress_hook (d : List (String × String)) (st : DownloadState) :
    Except DlError DownloadState :=
  match dictGet d "status" with
  | none => .error (.keyError "status")
  | some status =>
    if status = "finished" then
      match dictGet d "filename" with
      | none => .error (.keyError "filename")
      | some fn => .ok (some fn)
    else
      .ok st

/-- `get_downloaded_filepath` from the source: return the global. -/
def get_downloaded_filepath (st : DownloadState) : Option String := st

/-- Run a sequence of progress events through `my_progress_hook`,
threading the state; an exception escaping the hook aborts the run. -/
def applyHooks : List (List (String × String)) → DownloadState →
    Except DlError DownloadState
  | [], st => .ok st
  | d :: rest, st =>
    match my_progress_hook d st with
    | .ok st2 => applyHooks rest st2
    | .error e => .error e

/-- An event is finished when its `status` entry equals `"finished"`. -/
def isFinished (d : List (String × String)) : Bool :=
  dictGet d "status" = some "finished"

/-- Phrased from the claim: the filename of the last event in the
sequence whose status equals `"finished"`, or `none` when no event in
the sequence has status `"finished"`. -/
def lastFinishedFilename (events : List (List (String × String))) :
    Option String :=
  match events.reverse.find? isFinished with
  | some d => dictGet d "filename"
  | none => none

/-- A well-formed yt-dlp progress event: it carries a `status` key, and
a `filename` key whenever the status is `"finished"`. -/
def WFEvent (d : List (String × String)) : Prop :=
  (dictGet d "status").isSome = true ∧
    (dictGet d "status" = some "finished" →
      (dictGet d "filename").isSome = true)

instance (d : List (String × String)) : Decidable (WFEvent d) := by
  unfold WFEvent
  infer_instance

/-- Phrased from the claim: does `s` decompose into exactly three
integer-parseable colon-separated fields? -/
def threeIntFields (s : String) : Bool :=
  match mapOption pyIntChars (pySplit ':' s.toList) with
  | some [_, _, _] => true
  | _ => false

/-- The download-state value left behind by a sequence of events
starting from `st`: the `filename` entry of the last finished event, or
`st` when no event is finished. -/
def stateAfter (events : List (List (String × String))) (st : DownloadState) :
    DownloadState :=
  match events.reverse.find? isFinished with
  | some d => dictGet d "filename"
  | none => st

/-- The module's operations, for stating frame conditions on the
global state. -/
inductive Op where
  | parseTimecode : String → Op
  | computeRange : List (String × String) → Op
  | onProgress : List (String × String) → Op
  | getDownloadedPath : Op

/-- The result value of an operation. -/
inductive OpRes where
  | intRes : Except DlError Int → OpRes
  | rangesRes : Except DlError (List TimeRange) → OpRes
  | unitRes : Except DlError Unit → OpRes
  | pathRes : Option String → OpRes

/-- One operation of the module acting on the global state, returning
its result and the state afterwards.  Only `my_progress_hook` ever
assigns to `_downloaded_file_path_global`; the other three operations
contain no assignment to it. -/
def stepOp : Op → DownloadState → OpRes × DownloadState
  | .parseTimecode s, st => (.intRes (parse_time_to_seconds s), st)
  | .computeRange p, st => (.rangesRes (download_ranges_callback p), st)
  | .onProgress d, st =>
    match my_progress_hook d st with
    | .ok st2 => (.unitRes (.ok ()), st2)
    | .error e => (.unitRes (.error e), st)
  | .getDownloadedPath, st => (.pathRes (get_downloaded_filepath st), st)


/-! ## Helper lemmas -/

theorem except_bind_ok (a : α) (f : α → Except ε β) :
    (Except.ok a : Except ε α) >>= f = f a := rfl

theorem except_bind_error (e : ε) (f : α → Except ε β) :
    (Except.error e : Except ε α) >>= f = .error e := rfl

theorem parse_time_eval (s : String) (a b c : List Char) (h m sec : Int)
    (hsplit : pySplit ':' s.toList = [a, b, c])
    (ha : pyIntChars a = some h) (hb : pyIntChars b = some m)
    (hc : pyIntChars c = some sec) :
    parse_time_to_seconds s = .ok (h * 3600 + m * 60 + sec) := by
  unfold parse_time_to_seconds
  rw [hsplit]
  simp [mapOption, ha, hb, hc]

theorem parse_time_error_eq (s : String) (e : DlError)
    (h : parse_time_to_seconds s = .error e) : e = .formatError := by
  unfold parse_time_to_seconds at h
  split at h
  · exact absurd h (by simp)
  · exact (Except.error.inj h).symm

theorem ne_empty_of_split_three (s : String) (a b c : List Char)
    (hsplit : pySplit ':' s.toList = [a, b, c]) : s ≠ "" := by
  intro hs
  subst hs
  simp [pySplit] at hsplit

theorem compute_range_eval (params : List (String × String)) (st et : String)
    (ss es : Int)
    (h1 : dictGet params "start_time" = some st)
    (h2 : dictGet params "end_time" = some et)
    (h3 : st ≠ "") (h4 : et ≠ "")
    (h5 : parse_time_to_seconds st = .ok ss)
    (h6 : parse_time_to_seconds et = .ok es) :
    download_ranges_callback params = .ok [⟨ss, es⟩] := by
  simp only [download_ranges_callback, h1, h2, pyFalsy, decide_eq_false h3,
    decide_eq_false h4, Bool.or_self, Bool.false_eq_true, if_false, h5, h6,
    except_bind_ok]
  rfl

/-! ## Claim theorems -/

/-- C3: for every string that splits on ':' into exactly three
integer-parseable fields `h`, `m`, `sec`, `parse_time_to_seconds`
returns `h * 3600 + m * 60 + sec`. -/
theorem C3_parse_time_formula (s : String) (a b c : List Char) (h m sec : Int)
    (hsplit : pySplit ':' s.toList = [a, b, c])
    (ha : pyIntChars a = some h) (hb : pyIntChars b = some m)
    (hc : pyIntChars c = some sec) :
    parse_time_to_seconds s = .ok (h * 3600 + m * 60 + sec) :=
  parse_time_eval s a b c h m sec hsplit ha hb hc

/-- C3 witness: `parseTimecode "01:02:03" = 3723` and
`parseTimecode "00:00:00" = 0`. -/
theorem C3_parse_time_formula_witness :
    parse_time_to_seconds "01:02:03" = .ok 3723 ∧
      parse_time_to_seconds "00:00:00" = .ok 0 := by
  constructor
  · have h := C3_parse_time_formula "01:02:03" ['0', '1'] ['0', '2'] ['0', '3']
      1 2 3 (by decide) (by decide) (by decide) (by decide)
    simpa using h
  · have h := C3_parse_time_formula "00:00:00" ['0', '0'] ['0', '0'] ['0', '0']
      0 0 0 (by decide) (by decide) (by decide) (by decide)
    simpa using h

/-- C2: when `start_time` and `end_time` are both present, non-empty
and parse as three-field timecodes, `download_ranges_callback` returns
the single-element list holding the range from the two parsed values. -/
theorem C2_compute_range_single (params : List (String × String))
    (st et : String) (ss es : Int)
    (h1 : dictGet params "start_time" = some st)
    (h2 : dictGet params "end_time" = some et)
    (h3 : st ≠ "") (h4 : et ≠ "")
    (h5 : parse_time_to_seconds st = .ok ss)
    (h6 : parse_time_to_seconds et = .ok es) :
    download_ranges_callback params = .ok [⟨ss, es⟩] :=
  compute_range_eval params st et ss es h1 h2 h3 h4 h5 h6

/-- C2 witness: the spec's example
`computeRange({start_time:"00:00:10", end_time:"00:01:00"})` gives
`[{start_seconds:10, end_seconds:60}]`. -/
theorem C2_compute_range_single_witness :
    download_ranges_callback
        [("start_time", "00:00:10"), ("end_time", "00:01:00")] =
      .ok [⟨10, 60⟩] :=
  C2_compute_range_single
    [("start_time", "00:00:10"), ("end_time", "00:01:00")]
    "00:00:10" "00:01:00" 10 60 (by decide) (by decide) (by decide)
    (by decide) (by decide) (by decide)

/-- C4: `download_ranges_callback` fails with the missing-parameter
error iff `start_time` or `end_time` is absent or empty (Python-falsy)
in the configuration mapping; the parse path never produces it. -/
theorem C4_compute_range_missing_iff (params : List (String × String)) :
    download_ranges_callback params = .error .missingParameterError ↔
      pyFalsy (dictGet params "start_time") = true ∨
        pyFalsy (dictGet params "end_time") = true := by
  simp only [download_ranges_callback]
  cases hf : pyFalsy (dictGet params "start_time") with
  | true => simp [hf]
  | false =>
    cases hg : pyFalsy (dictGet params "end_time") with
    | true => simp [hf, hg]
    | false =>
      simp only [hf, hg, Bool.or_self, Bool.false_eq_true, if_false]
      rcases hs : dictGet params "start_time" with _ | st
      · rw [hs] at hf; simp [pyFalsy] at hf
      · rcases he : dictGet params "end_time" with _ | et
        · rw [he] at hg; simp [pyFalsy] at hg
        · simp only []
          cases hps : parse_time_to_seconds st with
          | error e =>
            have h := parse_time_error_eq st e hps
            subst h
            simp [hps, except_bind_error]
          | ok ss =>
            cases hpe : parse_time_to_seconds et with
            | error e =>
              have h := parse_time_error_eq et e hpe
              subst h
              simp [hps, hpe, except_bind_ok, except_bind_error]
            | ok es => simp [hps, hpe, except_bind_ok]

/-- C5: `parse_time_to_seconds` fails with the format error exactly
when the input does not decompose into exactly three integer fields,
its only error is the format error, and such an error propagates
unrecovered through `download_ranges_callback`. -/
theorem C5_parse_time_formatError (s : String) :
    (parse_time_to_seconds s = .error .formatError ↔
      threeIntFields s = false) ∧
    (∀ e, parse_time_to_seconds s = .error e → e = .formatError) ∧
    (∀ params st et, dictGet params "start_time" = some st →
      dictGet params "end_time" = some et → st ≠ "" → et ≠ "" →
      (parse_time_to_seconds st = .error .formatError ∨
        parse_time_to_seconds et = .error .formatError) →
      download_ranges_callback params = .error .formatError) := by
  refine ⟨?_, fun e he => parse_time_error_eq s e he, ?_⟩
  · unfold parse_time_to_seconds threeIntFields
    generalize mapOption pyIntChars (pySplit ':' s.toList) = r
    match r with
    | none => simp
    | some [] => simp
    | some [x] => simp
    | some [x, y] => simp
    | some [x, y, z] => simp
    | some (x :: y :: z :: w :: rest) => simp
  · intro params st et h1 h2 h3 h4 h5
    simp only [download_ranges_callback, h1, h2, pyFalsy, decide_eq_false h3,
      decide_eq_false h4, Bool.or_self, Bool.false_eq_true, if_false]
    cases hps : parse_time_to_seconds st with
    | error e =>
      have he := parse_time_error_eq st e hps
      subst he
      simp [except_bind_error]
    | ok ss =>
      rcases h5 with h5 | h5
      · rw [hps] at h5; exact absurd h5 (by simp)
      · simp [except_bind_ok, h5, except_bind_error]

/-- C5 witness: `parseTimecode "bad:input"` fails with the format
error, and the failure propagates through `computeRange`. -/
theorem C5_parse_time_formatError_witness :
    parse_time_to_seconds "bad:input" = .error .formatError ∧
      download_ranges_callback
          [("start_time", "bad:input"), ("end_time", "00:01:00")] =
        .error .formatError := by
  constructor
  · exact (C5_parse_time_formatError "bad:input").1.mpr (by decide)
  · exact (C5_parse_time_formatError "bad:input").2.2
      [("start_time", "bad:input"), ("end_time", "00:01:00")]
      "bad:input" "00:01:00" (by decide) (by decide) (by decide) (by decide)
      (Or.inl ((C5_parse_time_formatError "bad:input").1.mpr (by decide)))

/-- C6: the download state starts out empty and
`get_downloaded_filepath` returns the current state value as-is;
being a total function of the state, it cannot raise or block. -/
theorem C6_get_downloaded_filepath (st : DownloadState) :
    get_downloaded_filepath initialDownloadState = none ∧
      get_downloaded_filepath st = st :=
  ⟨rfl, rfl⟩

/-- C7: an event whose status is present but different from
`"finished"` leaves the download state exactly as it was. -/
theorem C7_progress_hook_frame (d : List (String × String))
    (st : DownloadState) (status : String)
    (hs : dictGet d "status" = some status)
    (hne : status ≠ "finished") :
    my_progress_hook d st = .ok st := by
  unfold my_progress_hook
  rw [hs]
  simp [hne]

/-- C7 witness: a `"downloading"` event keeps the stored path. -/
theorem C7_progress_hook_frame_witness :
    my_progress_hook [("status", "downloading")] (some "clip.mp4") =
      .ok (some "clip.mp4") :=
  C7_progress_hook_frame [("status", "downloading")] (some "clip.mp4")
    "downloading" (by decide) (by decide)

/-- C9: `my_progress_hook` raises a key error on events lacking
`status`, and on finished events lacking `filename`; when `status` is
present and `filename` is present whenever the status is finished, the
hook succeeds. -/
theorem C9_progress_hook_key_errors (d : List (String × String))
    (st : DownloadState) :
    (dictGet d "status" = none →
      my_progress_hook d st = .error (.keyError "status")) ∧
    (dictGet d "status" = some "finished" → dictGet d "filename" = none →
      my_progress_hook d st = .error (.keyError "filename")) ∧
    ((dictGet d "status").isSome = true →
      (dictGet d "status" = some "finished" →
        (dictGet d "filename").isSome = true) →
      ∃ st2, my_progress_hook d st = .ok st2) := by
  refine ⟨fun h => by unfold my_progress_hook; rw [h],
    fun h hf => by unfold my_progress_hook; rw [h]; simp [hf], fun h hf => ?_⟩
  rcases hs : dictGet d "status" with _ | status
  · rw [hs] at h; simp at h
  · by_cases hfin : status = "finished"
    · subst hfin
      have hfs : (dictGet d "filename").isSome = true := hf hs
      rcases hfv : dictGet d "filename" with _ | fn
      · rw [hfv] at hfs; simp at hfs
      · exact ⟨some fn, by unfold my_progress_hook; rw [hs, hfv]; simp⟩
    · exact ⟨st, by unfold my_progress_hook; rw [hs]; simp [hfin]⟩

/-- C9 witness: concrete malformed and well-formed events. -/
theorem C9_progress_hook_key_errors_witness :
    my_progress_hook [] none = .error (.keyError "status") ∧
    my_progress_hook [("status", "finished")] none =
      .error (.keyError "filename") ∧
    ∃ st2, my_progress_hook [("status", "finished"), ("filename", "o.mp4")]
        none = .ok st2 :=
  ⟨(C9_progress_hook_key_errors [] none).1 (by decide),
    (C9_progress_hook_key_errors [("status", "finished")] none).2.1
      (by decide) (by decide),
    (C9_progress_hook_key_errors
        [("status", "finished"), ("filename", "o.mp4")] none).2.2
      (by decide) (fun _ => by decide)⟩

/-- C10: the operations embedding `parse_time_to_seconds` and
`download_ranges_callback` return their result with the download state
unchanged, whether the result is a success or an error. -/
theorem C10_pure_ops_preserve_state (s : String)
    (params : List (String × String)) (st : DownloadState) :
    (stepOp (Op.parseTimecode s) st).2 = st ∧
    (stepOp (Op.computeRange params) st).2 = st :=
  ⟨rfl, rfl⟩

theorem stateAfter_cons (d : List (String × String))
    (rest : List (List (String × String))) (st : DownloadState) :
    stateAfter (d :: rest) st =
      stateAfter rest (if isFinished d then dictGet d "filename" else st) := by
  unfold stateAfter
  rw [List.reverse_cons, List.find?_append]
  cases hr : rest.reverse.find? isFinished with
  | some d2 => simp
  | none =>
    cases hf : isFinished d with
    | true => simp [hf]
    | false => simp [hf]

theorem applyHooks_cons (d : List (String × String))
    (rest : List (List (String × String))) (st : DownloadState) :
    applyHooks (d :: rest) st =
      match my_progress_hook d st with
      | .ok st2 => applyHooks rest st2
      | .error e => .error e := rfl

theorem applyHooks_eq_stateAfter (events : List (List (String × String))) :
    ∀ st : DownloadState, (∀ d ∈ events, WFEvent d) →
      applyHooks events st = .ok (stateAfter events st) := by
  induction events with
  | nil => intro st _; rfl
  | cons d rest ih =>
    intro st h
    have hd : WFEvent d := h d (List.mem_cons_self d rest)
    have hrest : ∀ x ∈ rest, WFEvent x := fun x hx => h x (List.mem_cons_of_mem d hx)
    obtain ⟨hstat, hfn⟩ := hd
    rw [stateAfter_cons, applyHooks_cons]
    rcases hsome : dictGet d "status" with _ | status
    · rw [hsome] at hstat; simp at hstat
    · by_cases hfin : status = "finished"
      · subst hfin
        have hfs : (dictGet d "filename").isSome = true := hfn hsome
        rcases hfv : dictGet d "filename" with _ | fn
        · rw [hfv] at hfs; simp at hfs
        · have hhook : my_progress_hook d st = .ok (some fn) := by
            unfold my_progress_hook
            rw [hsome, hfv]
            simp
          have hfin' : isFinished d = true := by simp [isFinished, hsome]
          rw [hhook, hfin', if_pos rfl]
          exact ih (some fn) hrest
      · have hhook : my_progress_hook d st = .ok st := by
          unfold my_progress_hook
          rw [hsome]
          simp [hfin]
        have hfin' : isFinished d = false := by simp [isFinished, hsome, hfin]
        rw [hhook, hfin']
        simp only [Bool.false_eq_true, if_false]
        exact ih st hrest

/-- C1: running any finite sequence of well-formed progress events from
the empty initial state leaves `get_downloaded_filepath` returning the
filename of the last event whose status is `"finished"` (each such
event overwrites the stored value), and `none` when no event in the
sequence is finished. -/
theorem C1_last_finished_filename (events : List (List (String × String)))
    (h : ∀ d ∈ events, WFEvent d) :
    (applyHooks events initialDownloadState).map get_downloaded_filepath =
      .ok (lastFinishedFilename events) := by
  rw [applyHooks_eq_stateAfter events initialDownloadState h]
  unfold lastFinishedFilename stateAfter initialDownloadState
    get_downloaded_filepath
  cases hr : events.reverse.find? isFinished <;> simp [hr, Except.map]

/-- C1 witness: of two finished events the later one wins, and a
non-finished event contributes nothing. -/
theorem C1_last_finished_filename_witness :
    (applyHooks
        [[("status", "downloading")],
          [("status", "finished"), ("filename", "part.mp4")],
          [("status", "finished"), ("filename", "out.mp4")]]
        initialDownloadState).map get_downloaded_filepath =
      .ok (some "out.mp4") := by
  have h := C1_last_finished_filename
    [[("status", "downloading")],
      [("status", "finished"), ("filename", "part.mp4")],
      [("status", "finished"), ("filename", "out.mp4")]]
    (by decide)
  have h2 : lastFinishedFilename
      [[("status", "downloading")],
        [("status", "finished"), ("filename", "part.mp4")],
        [("status", "finished"), ("filename", "out.mp4")]] =
      some "out.mp4" := by decide
  rw [h2] at h
  exact h

/-- C8 counterexample: the accepted string `"00:00:-5"` has a third
colon-separated component parsing to the negative integer `-5`, so
`parse_time_to_seconds` returns a negative total and
`download_ranges_callback` builds a range with negative start. -/
theorem C8_counterexample :
    pySplit ':' "00:00:-5".toList = [['0', '0'], ['0', '0'], ['-', '5']] ∧
    pyIntChars ['-', '5'] = some (-5) ∧
    parse_time_to_seconds "00:00:-5" = .ok (-5) ∧
    download_ranges_callback
        [("start_time", "00:00:-5"), ("end_time", "00:01:00")] =
      .ok [⟨-5, 60⟩] ∧
    (-5 : Int) < 0 :=
  ⟨by decide, by decide, by decide, by decide, by decide⟩

/-- C8 amended: accepted timecode strings have three integer-parseable
colon-separated components which may be negative; when all three parse
as non-negative integers, the parsed total is non-negative and the
range built from it by `download_ranges_callback` has a non-negative
start. -/
theorem C8_nonneg_fields (s : String) (a b c : List Char) (h m sec : Int)
    (hsplit : pySplit ':' s.toList = [a, b, c])
    (ha : pyIntChars a = some h) (hb : pyIntChars b = some m)
    (hc : pyIntChars c = some sec)
    (h0 : 0 ≤ h) (h1 : 0 ≤ m) (h2 : 0 ≤ sec) :
    parse_time_to_seconds s = .ok (h * 3600 + m * 60 + sec) ∧
    0 ≤ h * 3600 + m * 60 + sec ∧
    ∀ params et es, dictGet params "start_time" = some s →
      dictGet params "end_time" = some et → et ≠ "" →
      parse_time_to_seconds et = .ok es →
      download_ranges_callback params =
          .ok [⟨h * 3600 + m * 60 + sec, es⟩] ∧
        0 ≤ (TimeRange.mk (h * 3600 + m * 60 + sec) es).start_time := by
  have hp := parse_time_eval s a b c h m sec hsplit ha hb hc
  have hnn : 0 ≤ h * 3600 + m * 60 + sec :=
    add_nonneg (add_nonneg (mul_nonneg h0 (by norm_num))
      (mul_nonneg h1 (by norm_num))) h2
  refine ⟨hp, hnn, fun params et es hp1 hp2 hp3 hp4 => ⟨?_, hnn⟩⟩
  exact compute_range_eval params s et (h * 3600 + m * 60 + sec) es hp1 hp2
    (ne_empty_of_split_three s a b c hsplit) hp3 hp hp4

/-- C8 amended witness: `"00:00:10"` has non-negative fields and yields
a range with non-negative start. -/
theorem C8_nonneg_fields_witness :
    parse_time_to_seconds "00:00:10" = .ok 10 ∧
    download_ranges_callback
        [("start_time", "00:00:10"), ("end_time", "00:01:00")] =
      .ok [⟨10, 60⟩] ∧ (0 : Int) ≤ 10 := by
  have h := C8_nonneg_fields "00:00:10" ['0', '0'] ['0', '0'] ['1', '0']
    0 0 10 (by decide) (by decide) (by decide) (by decide)
    (by decide) (by decide) (by decide)
  obtain ⟨hp, hnn, hr⟩ := h
  have hr2 := hr [("start_time", "00:00:10"), ("end_time", "00:01:00")]
    "00:01:00" 60 (by decide) (by decide) (by decide) (by decide)
  refine ⟨by simpa using hp, by simpa using hr2.1, by norm_num⟩
